import Mathlib

/-!
Verification of the recipe ETL pipeline (extraction and transformation lambdas).

The Python sources are shallowly embedded:
* dictionaries/records are represented by their key lists where only key
  membership matters (`field in recipe` on a Python dict tests keys);
* Python integers are `Nat` (all quantities here are non-negative);
* Python floats are modelled as their exact rational values, with IEEE-754
  binary64 round-to-nearest (ties to even) applied at every literal,
  int-to-float conversion, product and sum; comparisons between a float and
  a small integer are exact in Python and hence compare the rational values;
* fallible calls (S3 writes, SQS sends) are modelled with `Except`, with an
  explicit environment supplying the outcome of each external call, and the
  visible side effects (local files, published queue messages) are threaded
  as explicit state.
-/

/-- A raw recipe record, represented by its list of keys.  The extraction
validator only ever tests key membership. -/
abbrev RecordKeys := List String

/-- The `required_fields` list from `data_extranction.py`. -/
def required_fields : List String := ["title", "ingredients", "directions"]

/-- Embeds `validate_raw_data`:
`all(field in recipe for field in required_fields)`. -/
def validate_raw_data (recipe : RecordKeys) : Bool :=
  required_fields.all (fun field => recipe.contains field)

/-- Fuel-driven embedding of Python `range(start, stop, step)` for a natural
step.  Each iteration advances `start` by `step ≥ 1`, so `stop - start` fuel
always suffices. -/
def rangeStepAux : Nat → Nat → Nat → Nat → List Nat
  | 0, _, _, _ => []
  | fuel + 1, start, stop, step =>
    if start < stop then start :: rangeStepAux fuel (start + step) stop step
    else []

/-- Python `range(start, stop, step)` with an integer step `step ≥ 1`. -/
def pyRange (start stop step : Nat) : List Nat :=
  rangeStepAux (stop - start) start stop step

/-- Embeds the batch construction of `lambda_handler` in
`data_extranction.py`:
`[recipes[i : i + BATCH_SIZE] for i in range(0, len(recipes), BATCH_SIZE)]`.
A Python slice `recipes[i : i + B]` is `(recipes.drop i).take B` (both clamp
at the end of the list). -/
def makeBatches {α : Type} (recipes : List α) (B : Nat) : List (List α) :=
  (pyRange 0 recipes.length B).map (fun i => (recipes.drop i).take B)

/-! ## Feature Transformer (`data_transfromation.py`) -/

/-- ASCII reading of the regex class `\w` (letters, digits, underscore). -/
def isWordChar (c : Char) : Bool := c.isAlphanum || c = '_'

/-- ASCII reading of the regex class `\s`. -/
def isSpaceChar (c : Char) : Bool :=
  c = ' ' || c = '\t' || c = '\n' || c = '\r' || c = '\x0c' || c = '\x0b'

/-- Fuel-driven scanner embedding Python
`re.compile(r"(\d+)\s*(\w+)").findall(direction)`: leftmost non-overlapping
matches.  At a digit, the greedy attempt takes the whole digit run, the
whitespace run, and then needs at least one word character; when none
follows, the engine backtracks one digit of `\d+` (possible only when the
run has at least two digits), making that digit the `\w+` group.  Every
branch consumes at least one character, so length-many units of fuel
suffice. -/
def findNumWordAux : Nat → List Char → List (String × String)
  | 0, _ => []
  | _ + 1, [] => []
  | fuel + 1, c :: rest =>
    if c.isDigit then
      let digs := (c :: rest).takeWhile Char.isDigit
      let afterD := (c :: rest).dropWhile Char.isDigit
      let afterW := afterD.dropWhile isSpaceChar
      let unit := afterW.takeWhile isWordChar
      if unit.isEmpty then
        if 2 ≤ digs.length then
          (String.mk digs.dropLast, String.mk (digs.drop (digs.length - 1)))
            :: findNumWordAux fuel afterD
        else
          findNumWordAux fuel rest
      else
        (String.mk digs, String.mk unit) :: findNumWordAux fuel (afterW.dropWhile isWordChar)
    else
      findNumWordAux fuel rest

/-- Embeds `time_pattern.findall(direction)` from `get_time_estimate`. -/
def re_findall_num_word (s : String) : List (String × String) :=
  findNumWordAux s.data.length s.data

/-- Python `int()` applied to the all-digit strings produced by the scanner. -/
def pyStrToNat (s : String) : Nat :=
  s.data.foldl (fun a c => a * 10 + (c.toNat - 48)) 0

/-- The `TIME_UNITS` dictionary, as a lookup. -/
def TIME_UNITS (unit : String) : Option Nat :=
  if unit = "hours" then some 3600
  else if unit = "hour" then some 3600
  else if unit = "minutes" then some 60
  else if unit = "minute" then some 60
  else if unit = "seconds" then some 1
  else if unit = "second" then some 1
  else none

/-- Embeds `get_time_estimate`: one running accumulator; per direction an
`any_match` flag records whether some occurrence had a recognized unit, and
300 seconds are added for a direction with no recognized occurrence. -/
def get_time_estimate (directions : List String) : Nat :=
  directions.foldl (fun time_estimate direction =>
    let r := (re_findall_num_word direction).foldl
      (fun (st : Nat × Bool) m =>
        match TIME_UNITS m.2 with
        | none => st
        | some u => (st.1 + pyStrToNat m.1 * u, true)) (time_estimate, false)
    if r.2 then r.1 else r.1 + 300) 0

/-- Restatement of the specified per-direction time contribution: the sum of
`integer × unit-seconds` over occurrences with recognized units, or the
300-second default when there is no recognized occurrence. -/
def direction_seconds (direction : String) : Nat :=
  let recognized := (re_findall_num_word direction).filterMap
    (fun m => (TIME_UNITS m.2).map (fun u => pyStrToNat m.1 * u))
  if recognized.isEmpty then 300 else recognized.sum

/-- Specified total time estimate: the sum of per-direction contributions. -/
def time_estimate_spec (directions : List String) : Nat :=
  (directions.map direction_seconds).sum

/-- Fuel-driven floor of the base-2 logarithm of a natural number (the
halving depth bounds the recursion, so the number itself is enough fuel). -/
def nlog2Aux : Nat → Nat → Nat
  | 0, _ => 0
  | fuel + 1, n => if 2 ≤ n then nlog2Aux fuel (n / 2) + 1 else 0

/-- Floor of the base-2 logarithm (0 at 0). -/
def nlog2 (n : Nat) : Nat := nlog2Aux n n

/-- Round the fraction num/den to the nearest integer, ties to even. -/
def roundSigEven (num den : Nat) : Nat :=
  let q := num / den
  let r := num % den
  if 2 * r < den then q
  else if den < 2 * r then q + 1
  else if q % 2 = 0 then q else q + 1

/-- A non-negative dyadic rational num / 2 ^ exp.  Every finite binary64
value occurring in this program (list lengths, the literals 0.6 and 0.4,
their products and sums — all non-negative) is of this shape. -/
structure Dyadic where
  num : Nat
  exp : Nat

/-- Round the dyadic value m / 2 ^ k to at most 53 significant bits,
nearest, ties to even — the binary64 rounding step.  With
2 ^ l ≤ m < 2 ^ (l+1), a value with l ≤ 52 is already representable;
otherwise the significand is round_even(m / 2 ^ (l-52)) and the
quantization step is 2 ^ (l-52) / 2 ^ k.  A carry to 2 ^ 53 lands on the
next binade and needs no special case.  The exponent is left unbounded:
every value reachable in this development lies far inside the binary64
normal range, where this agrees exactly with binary64. -/
def dyRound (m k : Nat) : Dyadic :=
  if m = 0 then ⟨0, 0⟩
  else
    let l := nlog2 m
    if l ≤ 52 then ⟨m, k⟩
    else
      let d := l - 52
      let n := roundSigEven m (2 ^ d)
      if d ≤ k then ⟨n, k - d⟩ else ⟨n * 2 ^ (d - k), 0⟩

/-- The binary64 value nearest to the positive rational a / b: with
2 ^ e ≤ a/b < 2 ^ (e+1), the significand is round_even((a/b) · 2 ^ (52-e)).
Used for the decimal float literals of the source. -/
def dyOfRatParts (a b : Nat) : Dyadic :=
  let e : Int :=
    if b ≤ a then Int.ofNat (nlog2 (a / b))
    else
      let e0 := nlog2 (b / a)
      if a * 2 ^ e0 = b then -(e0 : Int) else -((e0 : Int) + 1)
  match 52 - e with
  | Int.ofNat k => ⟨roundSigEven (a * 2 ^ k) b, k⟩
  | Int.negSucc k => ⟨roundSigEven a (b * 2 ^ (k + 1)) * 2 ^ (k + 1), 0⟩

/-- A Python float product: exact product, then one binary64 rounding. -/
def dyMul (x y : Dyadic) : Dyadic := dyRound (x.num * y.num) (x.exp + y.exp)

/-- A Python float sum: exact sum, then one binary64 rounding. -/
def dyAdd (x y : Dyadic) : Dyadic :=
  dyRound (x.num * 2 ^ y.exp + y.num * 2 ^ x.exp) (x.exp + y.exp)

/-- Python int-to-float conversion (exact below 2 ^ 53, rounded above). -/
def dyOfNat (n : Nat) : Dyadic := dyRound n 0

/-- The exact rational value of a dyadic float. -/
def ratOfDyadic (d : Dyadic) : Rat := (d.num : Rat) / (2 : Rat) ^ d.exp

/-- The binary64 value of the literal 0.6 (significand 5404319552844595,
exponent 53). -/
def pyFloat0_6 : Dyadic := dyOfRatParts 6 10

/-- The binary64 value of the literal 0.4 (significand 7205759403792794,
exponent 54). -/
def pyFloat0_4 : Dyadic := dyOfRatParts 4 10

/-- Embeds `get_complexity_score`:
`(len(directions) * 0.6) + (len(ingredients) * 0.4)` in Python float
arithmetic — the literals 0.6 and 0.4 denote the nearest binary64 values,
each length converts to a float, and each product and the final sum round
to nearest, ties to even.  The result is the exact rational value of the
computed binary64 score (float-int comparisons in Python are exact, so
`get_difficulty_flag` compares this rational directly). -/
def get_complexity_score (ingredients : List String) (directions : List String) : Rat :=
  ratOfDyadic (dyAdd (dyMul (dyOfNat directions.length) pyFloat0_6)
    (dyMul (dyOfNat ingredients.length) pyFloat0_4))

/-- Embeds `get_difficulty_flag`. -/
def get_difficulty_flag (complexity_score : Rat) : String :=
  if complexity_score < 4 then "easy"
  else if complexity_score < 8 then "medium"
  else "hard"

/-! ## Extraction coordinator effects (`data_extranction.py`)

External calls are supplied by an environment: each S3 write and SQS send
either returns a value or raises (`Except.error`).  The pair returned by
`extract_recipe_data` is the Python return value together with the list of
work notifications that were successfully published during the call. -/

/-- Outcomes of the external calls made while processing one batch. -/
structure ExtEnv where
  tempWrite : List RecordKeys → Except String String
  failedWrite : List RecordKeys → Except String String
  send : String → Except String Nat

/-- The body of the `try` block of `extract_recipe_data`: partition into
valid/invalid records, write the valid artifact, write the quarantine
artifact when the invalid sub-list is non-empty, then publish the work
notification.  Any raising call aborts the body with its exception. -/
def extract_body (env : ExtEnv) (recipes : List RecordKeys) :
    Except String (String × List String) :=
  let p := recipes.partition (fun r => validate_raw_data r)
  match env.tempWrite p.1 with
  | Except.error e => Except.error e
  | Except.ok temp_key =>
    match (if p.2.isEmpty then Except.ok temp_key else env.failedWrite p.2) with
    | Except.error e => Except.error e
    | Except.ok _ =>
      match env.send temp_key with
      | Except.error e => Except.error e
      | Except.ok _status => Except.ok (temp_key, [temp_key])

/-- Embeds `extract_recipe_data`: the `try` body with the catch-all
`except` clause that logs and returns `None` (the sentinel). -/
def extract_recipe_data (env : ExtEnv) (recipes : List RecordKeys) :
    Option String × List String :=
  match extract_body env recipes with
  | Except.ok r => (some r.1, r.2)
  | Except.error _ => (none, [])

/-- Embeds `threaded_extraction`: the thread pool applies
`extract_recipe_data` to each batch independently, collecting results in
input order (`executor.map` preserves order). -/
def threaded_extraction (env : ExtEnv) (batches : List (List RecordKeys)) :
    List (Option String × List String) :=
  batches.map (fun b => extract_recipe_data env b)

/-- Embeds `[result for result in results if result is None]` from
`lambda_handler`. -/
def none_results (results : List (Option String × List String)) :
    List (Option String × List String) :=
  results.filter (fun r => r.1.isNone)

/-- Environment in which both artifact writes and the queue send succeed. -/
def envOK : ExtEnv :=
  { tempWrite := fun _ => Except.ok "2025/01/01/a.parquet"
    failedWrite := fun _ => Except.ok "2025/01/01/b.parquet"
    send := fun _ => Except.ok 200 }

/-- Environment in which the primary artifact write and the queue send
succeed but the quarantine artifact write raises. -/
def envC5 : ExtEnv :=
  { tempWrite := fun _ => Except.ok "2025/01/01/valid.parquet"
    failedWrite := fun _ => Except.error "quarantine write failed"
    send := fun _ => Except.ok 200 }

/-- Environment in which the primary artifact write raises. -/
def envFail : ExtEnv :=
  { tempWrite := fun _ => Except.error "upload_file failed"
    failedWrite := fun _ => Except.ok "2025/01/01/b.parquet"
    send := fun _ => Except.ok 200 }

/-- Embeds `create_temp_file` as a transition on the local file system
(the list of local scratch files).  `df.to_parquet(temp_key)` creates the
local file; `s3.upload_file` either succeeds (`uploadOk = true`) or raises;
`os.remove(temp_key)` runs only after a successful upload, since the
function has no `finally` clause.  `temp_key` is the date-partitioned
random key from `create_s3_bucket_key`, left abstract here. -/
def create_temp_file (uploadOk : Bool) (temp_key : String) (localFiles : List String) :
    Except String String × List String :=
  let afterWrite := temp_key :: localFiles
  if uploadOk then (Except.ok temp_key, afterWrite.erase temp_key)
  else (Except.error "upload_file failed", afterWrite)

/-! ## Transformation coordinator (`data_transfromation.py`) -/

/-- Models the pandas string rendering of a Series, which is what a Python
f-string interpolates for `df` indexed at a column: one line per element
(positional index, then the value), followed by the Name/dtype footer.
Exact column alignment is immaterial to the theorems below, which only use
that this is not a bare difficulty value. -/
def pySeriesStr (name : String) (values : List String) : String :=
  String.intercalate "\n"
    (values.enum.map (fun p => toString p.1 ++ "    " ++ p.2)
      ++ ["Name: " ++ name ++ ", dtype: object"])

/-- Python `str.split("/")` on the character list: splitting on every slash,
with an empty group at each boundary, never returning an empty group list. -/
def splitSlash : List Char → List (List Char)
  | [] => [[]]
  | c :: rest =>
    let r := splitSlash rest
    if c = '/' then [] :: r
    else (c :: r.headD []) :: r.tail

/-- Embeds the output key construction of the transformation
`lambda_handler`: the difficulty-flag column of the dataframe is
interpolated into an f-string, followed by a slash and
`temp_key.split("/")[-1]`, the last slash-separated component of the
source key. -/
def output_key (difficulty_col : List String) (temp_key : String) : String :=
  pySeriesStr "difficulty_flag" difficulty_col ++ "/"
    ++ ((splitSlash temp_key.data).map String.mk).getLastD ""

/-- The columns added to every row by `df.apply(transform_row, axis=1)`. -/
def transform_columns (cols : List String) : List String :=
  cols ++ ["complexity_score", "difficulty_flag", "time_estimate", "recipe_id"]

/-- The column list requested by the transformation `lambda_handler`. -/
def required_output_columns : List String :=
  ["title", "ingredients", "directions", "tags", "complexity_score",
   "difficulty_flag", "time_estimate", "recipe_id"]

/-- Embeds pandas column selection `df[[...]]`: selecting a column that is
absent from the frame raises a `KeyError`. -/
def select_columns (wanted : List String) (cols : List String) :
    Except String (List String) :=
  if wanted.all (fun c => cols.contains c) then Except.ok wanted
  else Except.error "KeyError"

/-! ## Configuration (`data_extranction.py` module scope) -/

/-- A Python value as far as the batch-size configuration is concerned:
`os.environ.get` returns a string when the variable is set, and the given
default otherwise. -/
inductive PyVal where
  | int (n : Nat)
  | str (s : String)
deriving DecidableEq

/-- Embeds `os.environ.get(name, default)`. -/
def os_environ_get (envVar : Option String) (default : PyVal) : PyVal :=
  match envVar with
  | some s => PyVal.str s
  | none => default

/-- Embeds `BATCH_SIZE = os.environ.get("BATCH_SIZE", 100)`. -/
def BATCH_SIZE (envVar : Option String) : PyVal := os_environ_get envVar (PyVal.int 100)

/-- Embeds `MAX_WORKERS = os.environ.get("MAX_WORKERS", 10)`. -/
def MAX_WORKERS (envVar : Option String) : PyVal := os_environ_get envVar (PyVal.int 10)

/-- The batch construction of `lambda_handler` with the configured
`BATCH_SIZE` value: Python `range` raises a `TypeError` when its step is a
string and a `ValueError` when it is the integer 0, before any element is
produced. -/
def make_batchesV {α : Type} (recipes : List α) (batch_size : PyVal) :
    Except String (List (List α)) :=
  match batch_size with
  | PyVal.str _ => Except.error "TypeError"
  | PyVal.int b =>
    if b = 0 then Except.error "ValueError"
    else Except.ok (makeBatches recipes b)

section BatcherLemmas

theorem rangeStepAux_fuel (f₁ : Nat) : ∀ (f₂ start stop step : Nat),
    0 < step → stop - start ≤ f₁ → stop - start ≤ f₂ →
    rangeStepAux f₁ start stop step = rangeStepAux f₂ start stop step := by
  induction f₁ with
  | zero =>
    intro f₂ start stop step hstep h1 h2
    cases f₂ with
    | zero => rfl
    | succ f₂ =>
      simp only [rangeStepAux]
      rw [if_neg (by omega)]
  | succ f₁ ih =>
    intro f₂ start stop step hstep h1 h2
    cases f₂ with
    | zero =>
      simp only [rangeStepAux]
      rw [if_neg (by omega)]
    | succ f₂ =>
      simp only [rangeStepAux]
      by_cases h : start < stop
      · rw [if_pos h, if_pos h, ih f₂ (start + step) stop step hstep (by omega) (by omega)]
      · rw [if_neg h, if_neg h]

theorem rangeStepAux_shift (fuel : Nat) : ∀ (start stop step d : Nat),
    rangeStepAux fuel (start + d) (stop + d) step
      = (rangeStepAux fuel start stop step).map (fun i => i + d) := by
  induction fuel with
  | zero => intro start stop step d; rfl
  | succ fuel ih =>
    intro start stop step d
    simp only [rangeStepAux]
    by_cases h : start < stop
    · rw [if_pos (by omega), if_pos h]
      simp only [List.map_cons]
      rw [show start + d + step = start + step + d by omega, ih]
    · rw [if_neg (by omega), if_neg h]
      rfl

theorem pyRange_zero (step : Nat) : pyRange 0 0 step = [] := rfl

theorem rangeStepAux_adequate (fuel start stop step : Nat) (hstep : 0 < step)
    (h : stop - start ≤ fuel) :
    rangeStepAux fuel start stop step = pyRange start stop step :=
  rangeStepAux_fuel fuel (stop - start) start stop step hstep h (Nat.le_refl _)

theorem pyRange_cons (stop step : Nat) (hstep : 0 < step) (hstop : 0 < stop) :
    pyRange 0 stop step = 0 :: (pyRange 0 (stop - step) step).map (fun i => i + step) := by
  obtain ⟨n, rfl⟩ : ∃ n, stop = n + 1 := ⟨stop - 1, by omega⟩
  have h1 : pyRange 0 (n + 1) step = rangeStepAux (n + 1) 0 (n + 1) step := by
    unfold pyRange
    rw [Nat.sub_zero]
  rw [h1]
  simp only [rangeStepAux]
  rw [if_pos (by omega)]
  congr 1
  by_cases hcase : step ≤ n + 1
  · have hm : n + 1 - step + step = n + 1 := by omega
    have hshift := rangeStepAux_shift n 0 (n + 1 - step) step step
    rw [Nat.zero_add, hm] at hshift
    rw [Nat.zero_add, hshift]
    congr 1
    exact rangeStepAux_adequate n 0 (n + 1 - step) step hstep (by omega)
  · have h2 : n + 1 - step = 0 := by omega
    rw [h2, pyRange_zero, List.map_nil]
    cases n with
    | zero => rfl
    | succ m =>
      simp only [rangeStepAux]
      rw [if_neg (by omega)]

theorem makeBatches_nil {α : Type} (B : Nat) : makeBatches ([] : List α) B = [] := rfl

theorem makeBatches_cons {α : Type} (recipes : List α) (B : Nat) (hB : 0 < B)
    (h : recipes ≠ []) :
    makeBatches recipes B = recipes.take B :: makeBatches (recipes.drop B) B := by
  have hn : 0 < recipes.length := List.length_pos.mpr h
  unfold makeBatches
  rw [pyRange_cons recipes.length B hB hn, List.length_drop]
  simp only [List.map_cons, List.map_map, List.drop_zero]
  congr 1
  apply List.map_congr_left
  intro i _
  simp only [Function.comp_apply]
  rw [List.drop_drop, Nat.add_comm i B]

theorem makeBatches_ne_nil {α : Type} (recipes : List α) (B : Nat) (hB : 0 < B)
    (h : recipes ≠ []) : makeBatches recipes B ≠ [] := by
  rw [makeBatches_cons recipes B hB h]
  exact List.cons_ne_nil _ _

theorem batch_count_step (m B : Nat) (hB : 0 < B) (hm : 0 < m) :
    (m + B - 1) / B = ((m - B) + B - 1) / B + 1 := by
  by_cases hle : B ≤ m
  · rw [show m + B - 1 = (m - 1) + B by omega, Nat.add_div_right _ hB,
      show (m - B) + B - 1 = m - 1 by omega]
  · rw [show m - B = 0 by omega]
    rw [show m + B - 1 = (m - 1) + B by omega, Nat.add_div_right _ hB,
      Nat.div_eq_of_lt (by omega), Nat.div_eq_of_lt (by omega)]

theorem makeBatches_spec_aux {α : Type} (B : Nat) (hB : 0 < B) :
    ∀ (n : Nat) (recipes : List α), recipes.length ≤ n →
      (makeBatches recipes B).flatten = recipes
      ∧ (makeBatches recipes B).length = (recipes.length + B - 1) / B
      ∧ (∀ b ∈ (makeBatches recipes B).dropLast, b.length = B)
      ∧ (∀ l, (makeBatches recipes B).getLast? = some l →
            l.length = if recipes.length % B = 0 then B else recipes.length % B) := by
  intro n
  induction n with
  | zero =>
    intro recipes hlen
    have h0 : recipes = [] := List.length_eq_zero.mp (by omega)
    subst h0
    refine ⟨rfl, ?_, ?_, ?_⟩
    · simp only [makeBatches_nil, List.length_nil]
      rw [Nat.div_eq_of_lt (by omega)]
    · intro b hb; simp [makeBatches_nil] at hb
    · intro l hl; simp [makeBatches_nil] at hl
  | succ n ih =>
    intro recipes hlen
    by_cases hnil : recipes = []
    · exact ih recipes (by simp [hnil])
    · have hm : 0 < recipes.length := List.length_pos.mpr hnil
      have hdroplen : (recipes.drop B).length ≤ n := by
        rw [List.length_drop]; omega
      obtain ⟨ihflat, ihlen, ihdl, ihlast⟩ := ih (recipes.drop B) hdroplen
      rw [makeBatches_cons recipes B hB hnil]
      refine ⟨?_, ?_, ?_, ?_⟩
      · rw [List.flatten_cons, ihflat, List.take_append_drop]
      · rw [List.length_cons, ihlen, List.length_drop]
        rw [batch_count_step recipes.length B hB hm]
      · intro b hb
        by_cases hdnil : recipes.drop B = []
        · rw [hdnil, makeBatches_nil] at hb
          simp at hb
        · rw [List.dropLast_cons_of_ne_nil (makeBatches_ne_nil _ B hB hdnil)] at hb
          rcases List.mem_cons.mp hb with hbx | hbtail
          · subst hbx
            rw [List.length_take]
            have hBlt : B < recipes.length := by
              have := List.length_pos.mpr hdnil
              rw [List.length_drop] at this; omega
            omega
          · exact ihdl b hbtail
      · intro l hl
        by_cases hdnil : recipes.drop B = []
        · rw [hdnil, makeBatches_nil] at hl
          simp only [List.getLast?_singleton, Option.some.injEq] at hl
          subst hl
          have hmB : recipes.length ≤ B := by
            have hz := congrArg List.length hdnil
            rw [List.length_drop, List.length_nil] at hz
            omega
          rw [List.length_take]
          by_cases heq : recipes.length = B
          · rw [heq, Nat.mod_self, if_pos rfl]; omega
          · rw [Nat.mod_eq_of_lt (by omega), if_neg (by omega)]; omega
        · obtain ⟨t, ts, hts⟩ := List.exists_cons_of_ne_nil
            (makeBatches_ne_nil _ B hB hdnil)
          rw [hts, List.getLast?_cons_cons, ← hts] at hl
          have hBle : B ≤ recipes.length := by
            have := List.length_pos.mpr hdnil
            rw [List.length_drop] at this; omega
          have := ihlast l hl
          rw [List.length_drop] at this
          rw [Nat.mod_eq_sub_mod hBle]
          exact this

end BatcherLemmas

/-- C2: for every sequence of N records and positive batch size B, the batch
construction in `lambda_handler` produces exactly ⌈N/B⌉ contiguous slices,
each of length B except possibly the last (which has length N mod B, or B
when N mod B = 0), order is preserved so that the concatenation of all
batches equals the input, and the empty input yields zero batches. -/
theorem batcher_partitions_correctly {α : Type} (recipes : List α) (B : Nat) (hB : 0 < B) :
    (makeBatches recipes B).length = (recipes.length + B - 1) / B
    ∧ (makeBatches recipes B).flatten = recipes
    ∧ (∀ b ∈ (makeBatches recipes B).dropLast, b.length = B)
    ∧ (∀ l, (makeBatches recipes B).getLast? = some l →
          l.length = if recipes.length % B = 0 then B else recipes.length % B)
    ∧ (recipes = [] → makeBatches recipes B = []) := by
  obtain ⟨h1, h2, h3, h4⟩ :=
    makeBatches_spec_aux B hB recipes.length recipes (Nat.le_refl _)
  exact ⟨h2, h1, h3, h4, fun h => by rw [h, makeBatches_nil]⟩

/-- C4: the Validator returns true iff all of `title`, `ingredients`,
`directions` are present among the record keys.  It is a Lean function,
hence pure and total by construction: no side effects, no failure, and no
type or non-emptiness check beyond key membership. -/
theorem validator_iff_required_keys (recipe : RecordKeys) :
    validate_raw_data recipe = true ↔
      ("title" ∈ recipe ∧ "ingredients" ∈ recipe ∧ "directions" ∈ recipe) := by
  simp [validate_raw_data, required_fields]

/-- Witness for C2 at the concrete input [0, 1, 2, 3, 4] with batch size 2. -/
theorem batcher_partitions_correctly_witness :
    (makeBatches [0, 1, 2, 3, 4] 2).length = (([0, 1, 2, 3, 4] : List Nat).length + 2 - 1) / 2
    ∧ (makeBatches [0, 1, 2, 3, 4] 2).flatten = [0, 1, 2, 3, 4]
    ∧ (∀ b ∈ (makeBatches ([0, 1, 2, 3, 4] : List Nat) 2).dropLast, b.length = 2)
    ∧ (∀ l, (makeBatches ([0, 1, 2, 3, 4] : List Nat) 2).getLast? = some l →
          l.length = if ([0, 1, 2, 3, 4] : List Nat).length % 2 = 0 then 2
            else ([0, 1, 2, 3, 4] : List Nat).length % 2)
    ∧ (([0, 1, 2, 3, 4] : List Nat) = [] → makeBatches ([0, 1, 2, 3, 4] : List Nat) 2 = []) :=
  batcher_partitions_correctly [0, 1, 2, 3, 4] 2 (by decide)

section TimeEstimateLemmas

theorem time_fold_inner (ms : List (String × String)) : ∀ (t : Nat) (b : Bool),
    ms.foldl (fun (st : Nat × Bool) m =>
        match TIME_UNITS m.2 with
        | none => st
        | some u => (st.1 + pyStrToNat m.1 * u, true)) (t, b)
      = (t + (ms.filterMap (fun m => (TIME_UNITS m.2).map (fun u => pyStrToNat m.1 * u))).sum,
         b || !(ms.filterMap (fun m => (TIME_UNITS m.2).map (fun u => pyStrToNat m.1 * u))).isEmpty) := by
  induction ms with
  | nil => intro t b; simp
  | cons m ms ih =>
    intro t b
    simp only [List.foldl_cons, List.filterMap_cons]
    cases h : TIME_UNITS m.2 with
    | none =>
      simp only [h, Option.map_none']
      exact ih t b
    | some u =>
      simp only [h, Option.map_some']
      rw [ih (t + pyStrToNat m.1 * u) true]
      simp [Nat.add_assoc]

theorem get_time_estimate_direction (direction : String) (acc : Nat) :
    (let r := (re_findall_num_word direction).foldl
      (fun (st : Nat × Bool) m =>
        match TIME_UNITS m.2 with
        | none => st
        | some u => (st.1 + pyStrToNat m.1 * u, true)) (acc, false)
     if r.2 then r.1 else r.1 + 300) = acc + direction_seconds direction := by
  rw [time_fold_inner]
  simp only [Bool.false_or, direction_seconds]
  by_cases h : ((re_findall_num_word direction).filterMap
      (fun m => (TIME_UNITS m.2).map (fun u => pyStrToNat m.1 * u))).isEmpty
  · rw [h]
    have hnil : (re_findall_num_word direction).filterMap
        (fun m => (TIME_UNITS m.2).map (fun u => pyStrToNat m.1 * u)) = [] :=
      List.isEmpty_iff.mp h
    simp [hnil]
  · rw [Bool.eq_false_iff.mpr h]
    simp [h]

theorem get_time_estimate_fold (directions : List String) : ∀ (acc : Nat),
    directions.foldl (fun time_estimate direction =>
      let r := (re_findall_num_word direction).foldl
        (fun (st : Nat × Bool) m =>
          match TIME_UNITS m.2 with
          | none => st
          | some u => (st.1 + pyStrToNat m.1 * u, true)) (time_estimate, false)
      if r.2 then r.1 else r.1 + 300) acc
    = acc + time_estimate_spec directions := by
  induction directions with
  | nil => intro acc; simp [time_estimate_spec]
  | cons d ds ih =>
    intro acc
    simp only [List.foldl_cons]
    rw [get_time_estimate_direction d acc, ih (acc + direction_seconds d)]
    simp [time_estimate_spec, Nat.add_assoc]

end TimeEstimateLemmas

/-- C1: the time estimate scans each direction string for
`<integer><optional-whitespace><word>` occurrences; every occurrence with a
recognized unit (hour/hours 3600, minute/minutes 60, second/seconds 1)
contributes integer times unit-seconds, and a direction with zero
recognized occurrences contributes exactly 300 seconds, even when it
contains number-word occurrences with unrecognized units.  In particular
"Boil for 10 minutes" contributes 600, "Wait 2 hours and 30 minutes"
contributes 9000, "10 dashes" contributes 300, and a direction with no
numeric mention contributes 300. -/
theorem time_estimate_matches_spec :
    (∀ directions : List String, get_time_estimate directions = time_estimate_spec directions)
    ∧ get_time_estimate ["Boil for 10 minutes"] = 600
    ∧ get_time_estimate ["Wait 2 hours and 30 minutes"] = 9000
    ∧ get_time_estimate ["10 dashes"] = 300
    ∧ get_time_estimate ["Mix the flour"] = 300 := by
  refine ⟨?_, ?_, ?_, ?_, ?_⟩
  · intro directions
    unfold get_time_estimate
    rw [get_time_estimate_fold directions 0, Nat.zero_add]
  · rfl
  · rfl
  · rfl
  · rfl

set_option maxRecDepth 100000 in
/-- C3 counterexample: for a record with 6 directions and 1 ingredient the
program computes the binary64 value 4 - 2 ^ (-51) = 3.9999999999999996
(the product 6 × 0.6 is a round-to-even tie), not the exact
0.6 × 6 + 0.4 × 1 = 4 the claim asserts, and the difficulty flag is
"easy" although the claim puts the exact-score-4 record at "medium". -/
theorem complexity_score_float_rounding_cx :
    get_complexity_score ["i1"] ["d1", "d2", "d3", "d4", "d5", "d6"]
        ≠ (6 / 10 : Rat) * 6 + (4 / 10 : Rat) * 1
    ∧ get_complexity_score ["i1"] ["d1", "d2", "d3", "d4", "d5", "d6"]
        = 4 - 1 / (2 : Rat) ^ 51
    ∧ get_difficulty_flag
        (get_complexity_score ["i1"] ["d1", "d2", "d3", "d4", "d5", "d6"]) = "easy" := by
  have h : get_complexity_score ["i1"] ["d1", "d2", "d3", "d4", "d5", "d6"]
      = ratOfDyadic ⟨9007199254740991, 51⟩ := rfl
  refine ⟨?_, ?_, ?_⟩
  · rw [h]; unfold ratOfDyadic; norm_num
  · rw [h]; unfold ratOfDyadic; norm_num
  · rw [h]
    unfold get_difficulty_flag ratOfDyadic
    rw [if_pos (by norm_num)]

set_option maxRecDepth 100000 in
/-- C3 (amended): the complexity score is the IEEE-754 binary64 evaluation
of 0.6 × (number of directions) + 0.4 × (number of ingredients) — the two
float literals, each product with the converted length, and the final sum
all rounded to nearest, ties to even — and the difficulty flag is the
deterministic threshold function of that computed score: below 4 easy, in
[4, 8) medium, at or above 8 hard.  A computed score of exactly 4 yields
"medium" (reached, e.g., by 4 directions and 4 ingredients, where the
roundings cancel) and exactly 8 yields "hard", but rounding can land a
record whose exact score sits on a boundary strictly below it: 6
directions and 1 ingredient give 4 - 2 ^ (-51), flagged "easy", and 12
directions and 2 ingredients give 8 - 2 ^ (-50), flagged "medium". -/
theorem complexity_score_and_difficulty_float :
    (∀ ingredients directions : List String,
        get_complexity_score ingredients directions
          = ratOfDyadic (dyAdd (dyMul (dyOfNat directions.length) (dyOfRatParts 6 10))
              (dyMul (dyOfNat ingredients.length) (dyOfRatParts 4 10))))
    ∧ (∀ c : Rat, (get_difficulty_flag c = "easy" ↔ c < 4)
        ∧ (get_difficulty_flag c = "medium" ↔ 4 ≤ c ∧ c < 8)
        ∧ (get_difficulty_flag c = "hard" ↔ 8 ≤ c))
    ∧ get_difficulty_flag 4 = "medium"
    ∧ get_difficulty_flag 8 = "hard"
    ∧ get_complexity_score ["a", "b", "c", "d"] ["a", "b", "c", "d"] = 4
    ∧ get_difficulty_flag (get_complexity_score ["a", "b", "c", "d"] ["a", "b", "c", "d"])
        = "medium"
    ∧ get_complexity_score ["a", "b"]
        ["a", "b", "c", "d", "e", "f", "g", "h", "i", "j", "k", "l"]
        = 8 - 1 / (2 : Rat) ^ 50
    ∧ get_difficulty_flag (get_complexity_score ["a", "b"]
        ["a", "b", "c", "d", "e", "f", "g", "h", "i", "j", "k", "l"]) = "medium" := by
  have h44 : get_complexity_score ["a", "b", "c", "d"] ["a", "b", "c", "d"]
      = ratOfDyadic ⟨4503599627370496, 50⟩ := rfl
  have h12 : get_complexity_score ["a", "b"]
        ["a", "b", "c", "d", "e", "f", "g", "h", "i", "j", "k", "l"]
      = ratOfDyadic ⟨9007199254740991, 50⟩ := rfl
  refine ⟨fun _ _ => rfl, ?_, ?_, ?_, ?_, ?_, ?_, ?_⟩
  case refine_4 => rw [h44]; unfold ratOfDyadic; norm_num
  case refine_5 =>
    rw [h44]
    unfold get_difficulty_flag ratOfDyadic
    rw [if_neg (by norm_num), if_pos (by norm_num)]
  case refine_6 => rw [h12]; unfold ratOfDyadic; norm_num
  case refine_7 =>
    rw [h12]
    unfold get_difficulty_flag ratOfDyadic
    rw [if_neg (by norm_num), if_pos (by norm_num)]
  · intro c
    unfold get_difficulty_flag
    rcases lt_or_ge c 4 with h4 | h4
    · rw [if_pos h4]
      refine ⟨⟨fun _ => h4, fun _ => rfl⟩, ?_, ?_⟩
      · exact ⟨fun h => absurd h (by decide), fun h => absurd h4 (not_lt.mpr h.1)⟩
      · exact ⟨fun h => absurd h (by decide), fun h => absurd h4 (not_lt.mpr (by linarith))⟩
    · rcases lt_or_ge c 8 with h8 | h8
      · rw [if_neg (not_lt.mpr h4), if_pos h8]
        refine ⟨?_, ⟨fun _ => ⟨h4, h8⟩, fun _ => rfl⟩, ?_⟩
        · exact ⟨fun h => absurd h (by decide), fun h => absurd h (not_lt.mpr h4)⟩
        · exact ⟨fun h => absurd h (by decide), fun h => absurd h8 (not_lt.mpr h)⟩
      · rw [if_neg (not_lt.mpr h4), if_neg (not_lt.mpr h8)]
        refine ⟨?_, ?_, ⟨fun _ => h8, fun _ => rfl⟩⟩
        · exact ⟨fun h => absurd h (by decide), fun h => absurd h (not_lt.mpr (by linarith))⟩
        · exact ⟨fun h => absurd h (by decide), fun h => absurd h.2 (not_lt.mpr h8)⟩
  · unfold get_difficulty_flag
    rw [if_neg (by norm_num), if_pos (by norm_num)]
  · unfold get_difficulty_flag
    rw [if_neg (by norm_num), if_neg (by norm_num)]

/-- C5 counterexample: a concrete batch with a non-empty invalid sub-list in
an environment where the primary write and the queue send succeed but the
quarantine write raises.  The claim says the batch still publishes its work
notification and completes non-sentinel; instead the batch result is the
sentinel and nothing is published. -/
theorem quarantine_failure_escalates_cx :
    (([[]] : List (List String)).partition (fun r => validate_raw_data r)).2 = [[]]
    ∧ envC5.tempWrite [] = Except.ok "2025/01/01/valid.parquet"
    ∧ envC5.failedWrite [[]] = Except.error "quarantine write failed"
    ∧ envC5.send "2025/01/01/valid.parquet" = Except.ok 200
    ∧ extract_recipe_data envC5 [[]] = (none, []) :=
  ⟨rfl, rfl, rfl, rfl, rfl⟩

/-- C5 (amended): a failure while writing the quarantine artifact is caught
only by the per-batch exception handler: whenever the invalid sub-list is
non-empty and the quarantine write raises (the primary write having
succeeded), the batch returns the sentinel result and publishes no work
notification. -/
theorem quarantine_write_failure_escalates (env : ExtEnv) (recipes : List RecordKeys)
    (k e : String)
    (htemp : env.tempWrite (recipes.partition (fun r => validate_raw_data r)).1
        = Except.ok k)
    (hinv : (recipes.partition (fun r => validate_raw_data r)).2.isEmpty = false)
    (hfail : env.failedWrite (recipes.partition (fun r => validate_raw_data r)).2
        = Except.error e) :
    extract_recipe_data env recipes = (none, []) := by
  unfold extract_recipe_data extract_body
  simp only [htemp, hinv, hfail, Bool.false_eq_true, if_false]

/-- Witness for the amended C5 at the concrete environment `envC5` and the
single-record batch whose record has no keys. -/
theorem quarantine_write_failure_escalates_witness :
    envC5.tempWrite (([[]] : List RecordKeys).partition (fun r => validate_raw_data r)).1
        = Except.ok "2025/01/01/valid.parquet"
    ∧ (([[]] : List RecordKeys).partition (fun r => validate_raw_data r)).2.isEmpty = false
    ∧ envC5.failedWrite (([[]] : List RecordKeys).partition (fun r => validate_raw_data r)).2
        = Except.error "quarantine write failed"
    ∧ extract_recipe_data envC5 [[]] = (none, []) :=
  ⟨rfl, rfl, rfl,
    quarantine_write_failure_escalates envC5 [[]] "2025/01/01/valid.parquet"
      "quarantine write failed" rfl rfl rfl⟩

/-- C6 counterexample: when the remote durable write raises, the local
scratch file written under the generated key still exists after the call,
because `os.remove` is only reached on the success path. -/
theorem scratch_file_left_on_upload_failure_cx :
    (create_temp_file false "2025/01/01/x.parquet" []).1
        = Except.error "upload_file failed"
    ∧ (create_temp_file false "2025/01/01/x.parquet" []).2 = ["2025/01/01/x.parquet"] :=
  ⟨rfl, rfl⟩

/-- C6 (amended): the local scratch copy is removed exactly when the remote
durable write succeeds; when the upload raises, the call propagates the
error and leaves the local file under the generated key in place. -/
theorem scratch_file_removed_iff_upload_succeeds (temp_key : String)
    (localFiles : List String) :
    (create_temp_file true temp_key localFiles).1 = Except.ok temp_key
    ∧ (create_temp_file true temp_key localFiles).2 = localFiles
    ∧ (create_temp_file false temp_key localFiles).1 = Except.error "upload_file failed"
    ∧ (create_temp_file false temp_key localFiles).2 = temp_key :: localFiles
    ∧ temp_key ∈ (create_temp_file false temp_key localFiles).2 := by
  unfold create_temp_file
  refine ⟨rfl, ?_, rfl, rfl, ?_⟩
  · simp [List.erase_cons_head]
  · simp

/-- C7: evaluating the output-key construction of the transformation
coordinator at a one-row batch with difficulty flag "easy" and source key
"2025/02/17/abc.parquet": the key embeds the string rendering of the whole
difficulty-flag column, and is not of the shape
difficulty-flag/original-filename for any of the three flag values. -/
theorem output_key_is_not_flag_partitioned :
    output_key ["easy"] "2025/02/17/abc.parquet"
      = "0    easy\nName: difficulty_flag, dtype: object/abc.parquet"
    ∧ output_key ["easy"] "2025/02/17/abc.parquet" ≠ "easy/abc.parquet"
    ∧ output_key ["easy"] "2025/02/17/abc.parquet" ≠ "medium/abc.parquet"
    ∧ output_key ["easy"] "2025/02/17/abc.parquet" ≠ "hard/abc.parquet" := by
  refine ⟨rfl, by decide, by decide, by decide⟩

/-- C8: any exception in the body of per-batch processing is caught and
turned into the sentinel result, so `extract_recipe_data` never raises; the
parallel fan-out maps each batch independently, order-preserved, and the
failure count reported by the handler equals exactly the number of sentinel
results. -/
theorem batch_failures_isolated_and_counted (env : ExtEnv)
    (batches : List (List RecordKeys)) :
    (∀ recipes e, extract_body env recipes = Except.error e →
        extract_recipe_data env recipes = (none, []))
    ∧ (∀ recipes k t, extract_body env recipes = Except.ok (k, t) →
        extract_recipe_data env recipes = (some k, t))
    ∧ threaded_extraction env batches = batches.map (fun b => extract_recipe_data env b)
    ∧ (∀ (i : Nat) (h1 : i < (threaded_extraction env batches).length)
          (h2 : i < batches.length),
        (threaded_extraction env batches).get ⟨i, h1⟩
          = extract_recipe_data env (batches.get ⟨i, h2⟩))
    ∧ (none_results (threaded_extraction env batches)).length
        = (batches.filter (fun b => (extract_recipe_data env b).1.isNone)).length := by
  refine ⟨?_, ?_, rfl, ?_, ?_⟩
  · intro recipes e h
    unfold extract_recipe_data
    rw [h]
  · intro recipes k t h
    unfold extract_recipe_data
    rw [h]
  · intro i h1 h2
    simp [threaded_extraction]
  · unfold none_results threaded_extraction
    rw [List.filter_map, List.length_map]
    rfl

/-- Witness for C8: in the environment where the primary write raises, the
body errors and the per-batch result is the sentinel; in the environment
where everything succeeds, the body returns the key and the result is
non-sentinel. -/
theorem batch_failures_isolated_and_counted_witness :
    extract_body envFail [[]] = Except.error "upload_file failed"
    ∧ extract_recipe_data envFail [[]] = (none, [])
    ∧ extract_body envOK [[]]
        = Except.ok ("2025/01/01/a.parquet", ["2025/01/01/a.parquet"])
    ∧ extract_recipe_data envOK [[]]
        = (some "2025/01/01/a.parquet", ["2025/01/01/a.parquet"]) :=
  ⟨rfl,
    (batch_failures_isolated_and_counted envFail []).1 [[]] "upload_file failed" rfl,
    rfl,
    (batch_failures_isolated_and_counted envOK []).2.1 [[]] "2025/01/01/a.parquet"
      ["2025/01/01/a.parquet"] rfl⟩

/-- C9: the transformation coordinator selects the `tags` column, so every
artifact whose records lack `tags` makes the column selection raise, even
though the Validator accepts records without `tags`. -/
theorem transformation_requires_tags (cols : List String) (h : "tags" ∉ cols) :
    select_columns required_output_columns (transform_columns cols)
        = Except.error "KeyError"
    ∧ validate_raw_data ["title", "ingredients", "directions"] = true
    ∧ "tags" ∉ (["title", "ingredients", "directions"] : List String) := by
  refine ⟨?_, by decide, by decide⟩
  unfold select_columns
  rw [if_neg]
  intro hall
  rw [List.all_eq_true] at hall
  have htags := hall "tags" (by decide)
  simp at htags
  unfold transform_columns at htags
  rcases List.mem_append.mp htags with hc | hc
  · exact h hc
  · simp at hc

/-- Witness for C9 at the concrete column set of a record that passes
validation but has no `tags` key. -/
theorem transformation_requires_tags_witness :
    ("tags" ∉ (["title", "ingredients", "directions"] : List String))
    ∧ (select_columns required_output_columns
          (transform_columns ["title", "ingredients", "directions"])
        = Except.error "KeyError"
      ∧ validate_raw_data ["title", "ingredients", "directions"] = true
      ∧ "tags" ∉ (["title", "ingredients", "directions"] : List String)) :=
  ⟨by decide,
    transformation_requires_tags ["title", "ingredients", "directions"] (by decide)⟩

/-- C10: the batch-size configuration is read without integer conversion:
a set environment variable yields a string, which makes the batch
construction raise a TypeError for every event; only the built-in integer
defaults (batch size 100, worker count 10) give the specified batching. -/
theorem batch_size_env_not_converted :
    (∀ s : String, BATCH_SIZE (some s) = PyVal.str s)
    ∧ BATCH_SIZE none = PyVal.int 100
    ∧ MAX_WORKERS none = PyVal.int 10
    ∧ (∀ (s : String) (recipes : List RecordKeys),
        make_batchesV recipes (BATCH_SIZE (some s)) = Except.error "TypeError")
    ∧ (∀ recipes : List RecordKeys,
        make_batchesV recipes (BATCH_SIZE none) = Except.ok (makeBatches recipes 100)) :=
  ⟨fun _ => rfl, rfl, rfl, fun _ _ => rfl, fun _ => rfl⟩
